import Mathlib

/-!
# Verification of the valkey-glide transparent value-compression codec

A shallow embedding of the client-side compression codec: the
`CompressionConfiguration` value and its construction-time validation, the
`encode` path applied to single-key writes, the `decode` path applied to
single-key reads, the pluggable backend registry (ZSTD, LZ4), and the 5-byte
wire frame (4-byte magic marker plus 1-byte backend discriminant).

The repository ships only the tests, demos and benchmarks of the codec; the
codec implementation itself (the `CompressionConfiguration` class of
`glide_shared.config` and the core encode/decode routines) is external to the
available sources. Every definition that embeds that missing code is marked
`Modelled from the spec:` and follows the specification's algorithms word by
word. Bytes are modelled as `List Nat` (each element a byte value), sizes as
`Int` so that the validator can observe negative inputs, and fallible
operations return `Option` / `Except`.
-/

/-- Modelled from the spec: the closed set of compression backends named by a
configuration (missing `CompressionBackend` enum of `glide_shared.config`). -/
inductive CompressionBackend
  | ZSTD
  | LZ4
deriving DecidableEq, Repr

/-- Modelled from the spec: the construction-time configuration errors raised
by the missing `CompressionConfiguration` validator, one constructor per
check of the specification's ConfigValidator. -/
inductive ConfigurationError
  | minSizeNegative
  | maxSizeNegative
  | maxLessThanMin
  | zstdLevelOutOfRange
  | lz4LevelOutOfRange
deriving DecidableEq, Repr

/-- Modelled from the spec: the immutable `CompressionConfiguration` value
(missing from the sources; its field set and defaults are fixed by the spec's
data model and by `src/python/tests/test_config.py`). Sizes are `Int` so the
validator can reject negative inputs. -/
structure CompressionConfiguration where
  enabled : Bool
  backend : CompressionBackend
  compression_level : Option Int
  min_compression_size : Int
  max_compression_size : Option Int
deriving DecidableEq, Repr

/-- Modelled from the spec: the default-constructed configuration
(`enabled=False`, `backend=ZSTD`, `compression_level=None`,
`min_compression_size=64`, `max_compression_size=None`). -/
def CompressionConfiguration.default : CompressionConfiguration :=
  ⟨false, CompressionBackend.ZSTD, none, 64, none⟩

/-- Modelled from the spec: `validate(config) -> Result<(), ConfigurationError>`,
the checks of the ConfigValidator in the specification's order: negative
`min_compression_size`, negative `max_compression_size` (if present),
`max_compression_size < min_compression_size` (if present), then the
backend-specific `compression_level` range (ZSTD 1..22, LZ4 1..12). -/
def validate (c : CompressionConfiguration) : Except ConfigurationError Unit :=
  if c.min_compression_size < 0 then
    Except.error ConfigurationError.minSizeNegative
  else
    match c.max_compression_size with
    | some m =>
      if m < 0 then Except.error ConfigurationError.maxSizeNegative
      else if m < c.min_compression_size then Except.error ConfigurationError.maxLessThanMin
      else validateLevel c
    | none => validateLevel c
where
  /-- The backend-specific compression-level check. -/
  validateLevel (c : CompressionConfiguration) : Except ConfigurationError Unit :=
    match c.backend, c.compression_level with
    | CompressionBackend.ZSTD, some l =>
      if l < 1 ∨ 22 < l then Except.error ConfigurationError.zstdLevelOutOfRange
      else Except.ok ()
    | CompressionBackend.LZ4, some l =>
      if l < 1 ∨ 12 < l then Except.error ConfigurationError.lz4LevelOutOfRange
      else Except.ok ()
    | _, none => Except.ok ()

/-- A compression backend as the codec sees it: a compress routine taking the
optional configured level and a decompress routine, both fallible. -/
structure Backend where
  compress : List Nat → Option Int → Option (List Nat)
  decompress : List Nat → Option (List Nat)

/-- Modelled from the spec: the external ZSTD library backend. The spec treats
the backend-native compressed byte stream as opaque (the codec only requires
that decompress inverts compress and fails on foreign bytes), so the stream is
modelled as the input prefixed with a backend-specific stream tag: decompress
strips a matching tag and fails otherwise. -/
def zstdBackend : Backend :=
  ⟨fun raw _ => some (40 :: raw),
   fun s => match s with
     | 40 :: rest => some rest
     | _ => none⟩

/-- Modelled from the spec: the external LZ4 library backend, modelled like
`zstdBackend` with its own stream tag. -/
def lz4Backend : Backend :=
  ⟨fun raw _ => some (4 :: raw),
   fun s => match s with
     | 4 :: rest => some rest
     | _ => none⟩

/-- Modelled from the spec: the BackendRegistry mapping a configured backend to
its implementation (the encode-side dispatch). -/
def backendImpl : CompressionBackend → Backend
  | CompressionBackend.ZSTD => zstdBackend
  | CompressionBackend.LZ4 => lz4Backend

/-- Modelled from the spec: the stable 1-byte backend discriminant embedded in
the wire frame (the spec fixes its existence and stability, not its value). -/
def backendId : CompressionBackend → Nat
  | CompressionBackend.ZSTD => 0
  | CompressionBackend.LZ4 => 1

/-- Modelled from the spec: the decode-side dispatch of the BackendRegistry,
from the frame's discriminant byte to a backend; unknown discriminants have no
backend. -/
def backendOfId : Nat → Option Backend
  | 0 => some zstdBackend
  | 1 => some lz4Backend
  | _ => none

/-- The constant 4-byte ASCII magic marker "GLID" observed in
`src/integration-tests/compression/backward_compatibility_test.py`. -/
def MAGIC : List Nat := [71, 76, 73, 68]

/-- Whether `max_compression_size` (when present) excludes a value of the given
byte length: the spec's encode step 3. -/
def exceedsMax (max : Option Int) (len : Nat) : Bool :=
  match max with
  | some m => decide (m < (len : Int))
  | none => false

/-- Modelled from the spec: `encode(raw, config)`, the decision algorithm of
the Encoder in order: disabled, empty input (always left uncompressed), below
`min_compression_size`, above `max_compression_size`, otherwise compress with
the configured backend and prepend the 5-byte frame header, falling back to
the raw bytes if the backend call fails. -/
def encode (raw : List Nat) (c : CompressionConfiguration) : List Nat :=
  if c.enabled = false then raw
  else if raw = [] then raw
  else if (raw.length : Int) < c.min_compression_size then raw
  else if exceedsMax c.max_compression_size raw.length then raw
  else
    match (backendImpl c.backend).compress raw c.compression_level with
    | some compressed => MAGIC ++ backendId c.backend :: compressed
    | none => raw

/-- Modelled from the spec: `decode(stored)` conditioned on this client's
configuration: pass-through when compression is disabled; otherwise detect the
5-byte magic+discriminant header, dispatch on the discriminant byte stored in
the frame, and fall back to returning `stored` unchanged on any anomaly
(missing or short header, unknown discriminant, failed decompression). -/
def decode (stored : List Nat) (c : CompressionConfiguration) : List Nat :=
  if c.enabled = false then stored
  else
    match stored with
    | g :: l :: i :: d :: disc :: payload =>
      if [g, l, i, d] = MAGIC then
        match backendOfId disc with
        | some b =>
          match b.decompress payload with
          | some original => original
          | none => stored
        | none => stored
      else stored
    | _ => stored

/-- The model stream tag each model backend prefixes to its compressed
stream (40 for ZSTD, 4 for LZ4); an artifact of the backend model only. -/
def streamTag : CompressionBackend → Nat
  | CompressionBackend.ZSTD => 40
  | CompressionBackend.LZ4 => 4

/-- The external key-value store, modelled as an association list with the
most recent write first. -/
def Store := List (List Nat × List Nat)

/-- Write a key-value pair into the store. -/
def storeSet (s : Store) (k v : List Nat) : Store := (k, v) :: s

/-- Read the most recently written value for a key, if any. -/
def storeGet : Store → List Nat → Option (List Nat)
  | [], _ => none
  | (k', v) :: rest, k => if k' = k then some v else storeGet rest k

/-- Modelled from the spec: a single-key write routes its value through
`encode` before storing (the command-dispatch layer is external to the
sources). -/
def clientSet (c : CompressionConfiguration) (s : Store) (k v : List Nat) : Store :=
  storeSet s k (encode v c)

/-- Modelled from the spec: a single-key read routes the stored value through
`decode`. -/
def clientGet (c : CompressionConfiguration) (s : Store) (k : List Nat) :
    Option (List Nat) :=
  (storeGet s k).map (fun v => decode v c)

/-- Modelled from the spec: a multi-key batched write (MSET) bypasses the
codec entirely — every value is stored verbatim, never passed through
`encode`, regardless of the configuration. -/
def clientMSet (c : CompressionConfiguration) (s : Store)
    : List (List Nat × List Nat) → Store
  | [] => s
  | (k, v) :: rest => storeSet (clientMSet c s rest) k v

/-- Modelled from the spec: a multi-key batched read (MGET) bypasses the
codec entirely — stored bytes are returned verbatim, never passed through
`decode`, regardless of the configuration. -/
def clientMGet (_c : CompressionConfiguration) (s : Store) (ks : List (List Nat)) :
    List (Option (List Nat)) :=
  ks.map (fun k => storeGet s k)

/-! ## Helper lemmas about the codec -/

/-- Each model backend compresses any input successfully, to its tagged
stream. -/
theorem backendImpl_compress (b : CompressionBackend) (raw : List Nat) (lv : Option Int) :
    (backendImpl b).compress raw lv = some (streamTag b :: raw) := by
  cases b <;> rfl

/-- Each model backend decompresses its own tagged stream back to the input. -/
theorem backendImpl_decompress (b : CompressionBackend) (raw : List Nat) :
    (backendImpl b).decompress (streamTag b :: raw) = some raw := by
  cases b <;> rfl

/-- The decode-side registry inverts the encode-side discriminant. -/
theorem backendOfId_backendId (b : CompressionBackend) :
    backendOfId (backendId b) = some (backendImpl b) := by
  cases b <;> rfl

/-- With compression disabled, `encode` returns the input unchanged. -/
theorem encode_disabled (c : CompressionConfiguration) (hdis : c.enabled = false)
    (raw : List Nat) : encode raw c = raw := by
  simp [encode, hdis]

/-- With compression disabled, `decode` returns the stored bytes unchanged. -/
theorem decode_disabled (c : CompressionConfiguration) (hdis : c.enabled = false)
    (stored : List Nat) : decode stored c = stored := by
  simp [decode, hdis]

/-- When every compression precondition holds, `encode` emits the framed
value: magic marker, discriminant byte, backend stream. -/
theorem encode_of_meets (c : CompressionConfiguration) (data : List Nat)
    (hen : c.enabled = true) (hne : data ≠ [])
    (hmin : c.min_compression_size ≤ (data.length : Int))
    (hmax : exceedsMax c.max_compression_size data.length = false) :
    encode data c = MAGIC ++ backendId c.backend :: streamTag c.backend :: data := by
  have hlt : ¬((data.length : Int) < c.min_compression_size) := not_lt.2 hmin
  simp [encode, hen, hne, hlt, hmax, backendImpl_compress]

/-- When any compression precondition fails, `encode` returns the input
unchanged. -/
theorem encode_skip (c : CompressionConfiguration) (data : List Nat)
    (h : c.enabled = false ∨ data = [] ∨ (data.length : Int) < c.min_compression_size
        ∨ exceedsMax c.max_compression_size data.length = true) :
    encode data c = data := by
  simp only [encode]
  split_ifs with h1 h2 h3 h4
  · rfl
  · rfl
  · rfl
  · rfl
  · rcases h with h | h | h | h
    · exact absurd h h1
    · exact absurd h h2
    · exact absurd h h3
    · exact absurd h (by simpa using h4)

/-- A framed value decodes, under any compression-enabled configuration, to
the bytes the backend compressed, whatever the reader's own backend. -/
theorem decode_frame (c : CompressionConfiguration) (hen : c.enabled = true)
    (b : CompressionBackend) (data : List Nat) :
    decode (MAGIC ++ backendId b :: streamTag b :: data) c = data := by
  cases b <;> simp [decode, hen, MAGIC, backendId, streamTag, backendOfId,
    zstdBackend, lz4Backend]

/-- Stored bytes whose first four bytes are not the magic marker decode to
themselves under any configuration. -/
theorem decode_keep_of_no_magic (c : CompressionConfiguration) (stored : List Nat)
    (h : stored.take 4 ≠ MAGIC) : decode stored c = stored := by
  by_cases hdis : c.enabled = false
  · exact decode_disabled c hdis stored
  · match stored with
    | [] => simp [decode, hdis]
    | [g] => simp [decode, hdis]
    | [g, l] => simp [decode, hdis]
    | [g, l, i] => simp [decode, hdis]
    | [g, l, i, d] => simp [decode, hdis]
    | g :: l :: i :: d :: disc :: payload =>
      have h4 : [g, l, i, d] ≠ MAGIC := by
        simpa [List.take] using h
      simp [decode, hdis, h4]

/-- Stored bytes shorter than the 5-byte header decode to themselves under
any configuration. -/
theorem decode_keep_of_short (c : CompressionConfiguration) (stored : List Nat)
    (h : stored.length < 5) : decode stored c = stored := by
  by_cases hdis : c.enabled = false
  · exact decode_disabled c hdis stored
  · match stored with
    | [] => simp [decode, hdis]
    | [g] => simp [decode, hdis]
    | [g, l] => simp [decode, hdis]
    | [g, l, i] => simp [decode, hdis]
    | [g, l, i, d] => simp [decode, hdis]
    | g :: l :: i :: d :: disc :: payload => simp at h; omega

/-! ## Helper lemmas about the store model -/

/-- Reading a key just written returns the written value. -/
theorem storeGet_set_self (s : Store) (k v : List Nat) :
    storeGet (storeSet s k v) k = some v := by
  simp [storeGet, storeSet]

/-- Reading a different key skips the most recent write. -/
theorem storeGet_set_ne (s : Store) (k k' v : List Nat) (h : k ≠ k') :
    storeGet (storeSet s k v) k' = storeGet s k' := by
  simp [storeGet, storeSet, h]

/-- A multi-key write with pairwise distinct keys stores every value
verbatim: reading any written key afterwards yields the exact original
value. -/
theorem clientMSet_storeGet (c : CompressionConfiguration) (s : Store)
    (kvs : List (List Nat × List Nat)) (hnd : (kvs.map Prod.fst).Nodup)
    (k v : List Nat) (hmem : (k, v) ∈ kvs) :
    storeGet (clientMSet c s kvs) k = some v := by
  induction kvs with
  | nil => cases hmem
  | cons kv rest ih =>
    obtain ⟨k0, v0⟩ := kv
    simp only [List.map_cons, List.nodup_cons] at hnd
    rcases List.mem_cons.mp hmem with heq | hmem'
    · cases heq
      exact storeGet_set_self _ _ _
    · have hk0 : k0 ≠ k := by
        intro hEq
        exact hnd.1 (by rw [hEq]; exact List.mem_map.mpr ⟨(k, v), hmem', rfl⟩)
      rw [clientMSet, storeGet_set_ne _ _ _ _ hk0]
      exact ih hnd.2 hmem'

/-! ## Claim theorems -/

/-- C3: constructing a `CompressionConfiguration` is rejected exactly when the
minimum size is negative, a present maximum size is negative or below the
minimum, or a present compression level lies outside the backend's range
(ZSTD 1..22, LZ4 1..12); in particular ZSTD levels 1 and 22 and LZ4 levels 1
and 12 are accepted while ZSTD levels 0 and 23 and LZ4 levels 0 and 13 are
rejected. -/
theorem validate_rejects_iff :
    (∀ c : CompressionConfiguration,
      validate c ≠ Except.ok () ↔
        (c.min_compression_size < 0
          ∨ (∃ m, c.max_compression_size = some m ∧ m < 0)
          ∨ (∃ m, c.max_compression_size = some m ∧ m < c.min_compression_size)
          ∨ (c.backend = CompressionBackend.ZSTD ∧
              ∃ l, c.compression_level = some l ∧ (l < 1 ∨ 22 < l))
          ∨ (c.backend = CompressionBackend.LZ4 ∧
              ∃ l, c.compression_level = some l ∧ (l < 1 ∨ 12 < l))))
    ∧ validate ⟨false, CompressionBackend.ZSTD, some 1, 64, none⟩ = Except.ok ()
    ∧ validate ⟨false, CompressionBackend.ZSTD, some 22, 64, none⟩ = Except.ok ()
    ∧ validate ⟨false, CompressionBackend.LZ4, some 1, 64, none⟩ = Except.ok ()
    ∧ validate ⟨false, CompressionBackend.LZ4, some 12, 64, none⟩ = Except.ok ()
    ∧ validate ⟨false, CompressionBackend.ZSTD, some 0, 64, none⟩
        = Except.error ConfigurationError.zstdLevelOutOfRange
    ∧ validate ⟨false, CompressionBackend.ZSTD, some 23, 64, none⟩
        = Except.error ConfigurationError.zstdLevelOutOfRange
    ∧ validate ⟨false, CompressionBackend.LZ4, some 0, 64, none⟩
        = Except.error ConfigurationError.lz4LevelOutOfRange
    ∧ validate ⟨false, CompressionBackend.LZ4, some 13, 64, none⟩
        = Except.error ConfigurationError.lz4LevelOutOfRange := by
  refine ⟨?_, rfl, rfl, rfl, rfl, rfl, rfl, rfl, rfl⟩
  intro c
  obtain ⟨en, b, lv, mn, mx⟩ := c
  cases b <;> rcases lv with _ | l <;> rcases mx with _ | m <;>
    simp [validate, validate.validateLevel] <;>
    split_ifs <;> simp_all

/-- C4: a configuration whose `min_compression_size` is zero is accepted by
the validator whenever every other field passes its own check — the validator
rejects only strictly negative minimum sizes. -/
theorem validate_min_size_zero_ok (e : Bool) (b : CompressionBackend)
    (lv mx : Option Int)
    (hmx : ∀ m, mx = some m → 0 ≤ m)
    (hzstd : ∀ l, lv = some l → b = CompressionBackend.ZSTD → 1 ≤ l ∧ l ≤ 22)
    (hlz4 : ∀ l, lv = some l → b = CompressionBackend.LZ4 → 1 ≤ l ∧ l ≤ 12) :
    validate ⟨e, b, lv, 0, mx⟩ = Except.ok () := by
  cases b <;> rcases lv with _ | l <;> rcases mx with _ | m
  all_goals
    first
    | (have hm : (0 : Int) ≤ m := hmx m rfl
       first
       | (have hl := hzstd l rfl rfl
          simp only [validate, validate.validateLevel]
          split_ifs <;> first | rfl | (exfalso; omega))
       | (have hl := hlz4 l rfl rfl
          simp only [validate, validate.validateLevel]
          split_ifs <;> first | rfl | (exfalso; omega))
       | (simp only [validate, validate.validateLevel]
          split_ifs <;> first | rfl | (exfalso; omega)))
    | (first
       | (have hl := hzstd l rfl rfl
          simp only [validate, validate.validateLevel]
          split_ifs <;> first | rfl | (exfalso; omega))
       | (have hl := hlz4 l rfl rfl
          simp only [validate, validate.validateLevel]
          split_ifs <;> first | rfl | (exfalso; omega))
       | (simp only [validate, validate.validateLevel]
          split_ifs <;> first | rfl | (exfalso; omega)))

/-- C4 witness: the concrete configuration with `min_compression_size = 0`,
compression enabled, ZSTD level 3 and a maximum size of 1024 validates. -/
theorem validate_min_size_zero_ok_witness :
    validate ⟨true, CompressionBackend.ZSTD, some 3, 0, some 1024⟩ = Except.ok () :=
  validate_min_size_zero_ok true CompressionBackend.ZSTD (some 3) (some 1024)
    (fun m h => by cases h; decide)
    (fun l h _ => by cases h; exact ⟨by decide, by decide⟩)
    (fun l h hb => by cases hb)

/-- C10: validation is independent of the `enabled` flag — replacing the flag
never changes the validator's verdict — and in particular a configuration left
disabled (the default) with an out-of-range compression level is still
rejected: ZSTD levels 0 and 23 and LZ4 levels 0 and 13 each raise the
corresponding error even though such a configuration would never compress. -/
theorem validate_ignores_enabled :
    (∀ (c : CompressionConfiguration) (e : Bool),
      validate ⟨e, c.backend, c.compression_level,
        c.min_compression_size, c.max_compression_size⟩ = validate c)
    ∧ validate ⟨false, CompressionBackend.ZSTD, some 0, 64, none⟩
        = Except.error ConfigurationError.zstdLevelOutOfRange
    ∧ validate ⟨false, CompressionBackend.ZSTD, some 23, 64, none⟩
        = Except.error ConfigurationError.zstdLevelOutOfRange
    ∧ validate ⟨false, CompressionBackend.LZ4, some 0, 64, none⟩
        = Except.error ConfigurationError.lz4LevelOutOfRange
    ∧ validate ⟨false, CompressionBackend.LZ4, some 13, 64, none⟩
        = Except.error ConfigurationError.lz4LevelOutOfRange :=
  ⟨fun _ _ => rfl, rfl, rfl, rfl, rfl⟩

/-- C1 (counterexample): a validated, compression-enabled ZSTD configuration
and a byte string that the claim's round trip does not return: six bytes that
themselves begin with the magic marker and parse as a ZSTD frame are stored
raw (below the 64-byte minimum) yet decoded as a frame. -/
theorem roundtrip_counterexample :
    validate ⟨true, CompressionBackend.ZSTD, some 3, 64, none⟩ = Except.ok ()
    ∧ (⟨true, CompressionBackend.ZSTD, some 3, 64, none⟩
        : CompressionConfiguration).enabled = true
    ∧ decode (encode [71, 76, 73, 68, 0, 40]
          ⟨true, CompressionBackend.ZSTD, some 3, 64, none⟩)
        ⟨true, CompressionBackend.ZSTD, some 3, 64, none⟩
      ≠ [71, 76, 73, 68, 0, 40] :=
  ⟨rfl, rfl, by decide⟩

/-- C1 (amended): for every validated, compression-enabled configuration and
every byte string, decoding the result of encode with that configuration
returns exactly the original bytes, provided the input either meets the
compression thresholds (nonempty, at least the minimum size, within any
maximum) or does not begin with the 4-byte magic marker. -/
theorem roundtrip_enabled (c : CompressionConfiguration) (data : List Nat)
    (_hva : validate c = Except.ok ()) (hen : c.enabled = true)
    (h : data.take 4 ≠ MAGIC
      ∨ (data ≠ [] ∧ c.min_compression_size ≤ (data.length : Int)
          ∧ exceedsMax c.max_compression_size data.length = false)) :
    decode (encode data c) c = data := by
  by_cases hc : data ≠ [] ∧ c.min_compression_size ≤ (data.length : Int)
      ∧ exceedsMax c.max_compression_size data.length = false
  · obtain ⟨hne, hmin, hmax⟩ := hc
    rw [encode_of_meets c data hen hne hmin hmax]
    exact decode_frame c hen c.backend data
  · have hmag : data.take 4 ≠ MAGIC := by
      rcases h with h | h
      · exact h
      · exact absurd h hc
    have hskip : encode data c = data := by
      rcases Classical.em (data = []) with he | he
      · exact encode_skip c data (Or.inr (Or.inl he))
      rcases Classical.em ((data.length : Int) < c.min_compression_size) with hlt | hlt
      · exact encode_skip c data (Or.inr (Or.inr (Or.inl hlt)))
      refine encode_skip c data (Or.inr (Or.inr (Or.inr ?_)))
      cases hEx : exceedsMax c.max_compression_size data.length
      · exact absurd ⟨he, not_lt.1 hlt, hEx⟩ hc
      · rfl
    rw [hskip]
    exact decode_keep_of_no_magic c data hmag

/-- C1 witness: the amended round trip at a concrete 64-byte value under the
validated enabled ZSTD configuration. -/
theorem roundtrip_enabled_witness :
    decode (encode (List.replicate 64 65)
        ⟨true, CompressionBackend.ZSTD, some 3, 64, none⟩)
      ⟨true, CompressionBackend.ZSTD, some 3, 64, none⟩ = List.replicate 64 65 :=
  roundtrip_enabled _ _ rfl rfl (Or.inr ⟨by decide, by decide, rfl⟩)

/-- C2: decode is a total function that falls back to the stored bytes on
every anomaly: under an enabled configuration, stored bytes shorter than the
5-byte header or lacking the magic marker are returned unchanged, and a
header-bearing value whose discriminant is unknown or whose payload fails to
decompress is also returned unchanged. -/
theorem decode_never_fails (c : CompressionConfiguration) (stored : List Nat)
    (_hva : validate c = Except.ok ()) :
    (c.enabled = true → (stored.length < 5 ∨ stored.take 4 ≠ MAGIC) →
      decode stored c = stored)
    ∧ (∀ disc payload, stored = MAGIC ++ disc :: payload →
        (backendOfId disc = none
          ∨ ∃ b, backendOfId disc = some b ∧ b.decompress payload = none) →
        decode stored c = stored) := by
  constructor
  · rintro _ (h | h)
    · exact decode_keep_of_short c stored h
    · exact decode_keep_of_no_magic c stored h
  · rintro disc payload rfl hfail
    by_cases he : c.enabled = false
    · exact decode_disabled c he _
    · rcases hfail with hnone | ⟨b, hb, hdec⟩
      · simp [decode, he, MAGIC, hnone]
      · simp [decode, he, MAGIC, hb, hdec]

/-- C2 witness: under the validated enabled ZSTD configuration, plain bytes
decode to themselves, and a magic-headed value with an unknown discriminant
decodes to itself. -/
theorem decode_never_fails_witness :
    decode [1, 2, 3] ⟨true, CompressionBackend.ZSTD, none, 64, none⟩ = [1, 2, 3]
    ∧ decode [71, 76, 73, 68, 9, 1] ⟨true, CompressionBackend.ZSTD, none, 64, none⟩
        = [71, 76, 73, 68, 9, 1] :=
  ⟨(decode_never_fails ⟨true, CompressionBackend.ZSTD, none, 64, none⟩
      [1, 2, 3] rfl).1 rfl (Or.inl (by decide)),
   (decode_never_fails ⟨true, CompressionBackend.ZSTD, none, 64, none⟩
      [71, 76, 73, 68, 9, 1] rfl).2 9 [1] rfl (Or.inl rfl)⟩

/-- C5: with compression disabled, encode and decode are the identity on all
byte strings with no header inspection; consequently a disabled client
reading a value compressed by another client receives the raw frame bytes —
beginning with the magic marker and distinct from the original content. -/
theorem disabled_identity (c : CompressionConfiguration) (hdis : c.enabled = false) :
    (∀ data, encode data c = data)
    ∧ (∀ stored, decode stored c = stored)
    ∧ (∀ (cw : CompressionConfiguration) (data : List Nat),
        cw.enabled = true → data ≠ [] →
        cw.min_compression_size ≤ (data.length : Int) →
        exceedsMax cw.max_compression_size data.length = false →
        decode (encode data cw) c = encode data cw
        ∧ (encode data cw).take 4 = MAGIC
        ∧ encode data cw ≠ data) := by
  refine ⟨fun data => encode_disabled c hdis data,
          fun stored => decode_disabled c hdis stored,
          fun cw data hen hne hmin hmax => ?_⟩
  rw [encode_of_meets cw data hen hne hmin hmax]
  refine ⟨decode_disabled c hdis _, rfl, ?_⟩
  intro hEq
  have hlen := congrArg List.length hEq
  simp [MAGIC] at hlen
  omega

/-- C5 witness: the disabled-configuration identities and the raw-frame
read-through at concrete values. -/
theorem disabled_identity_witness :
    encode [5] ⟨false, CompressionBackend.ZSTD, none, 64, none⟩ = [5]
    ∧ decode (encode (List.replicate 64 65)
          ⟨true, CompressionBackend.ZSTD, some 3, 64, none⟩)
        ⟨false, CompressionBackend.ZSTD, none, 64, none⟩
      = encode (List.replicate 64 65) ⟨true, CompressionBackend.ZSTD, some 3, 64, none⟩ :=
  ⟨(disabled_identity ⟨false, CompressionBackend.ZSTD, none, 64, none⟩ rfl).1 [5],
   ((disabled_identity ⟨false, CompressionBackend.ZSTD, none, 64, none⟩ rfl).2.2
      ⟨true, CompressionBackend.ZSTD, some 3, 64, none⟩ (List.replicate 64 65)
      rfl (by decide) (by decide) rfl).1⟩

/-- C6: every compressed value produced by encode is the fixed 5-byte header —
the 4-byte magic marker then the 1-byte backend discriminant — followed by
the backend's compressed stream, while any value encode does not compress is
stored as the exact original bytes with no header. -/
theorem frame_format (c : CompressionConfiguration) (data : List Nat) :
    (c.enabled = true → data ≠ [] →
      c.min_compression_size ≤ (data.length : Int) →
      exceedsMax c.max_compression_size data.length = false →
      ∃ payload,
        (backendImpl c.backend).compress data c.compression_level = some payload
        ∧ encode data c = MAGIC ++ backendId c.backend :: payload)
    ∧ ((c.enabled = false ∨ data = []
          ∨ (data.length : Int) < c.min_compression_size
          ∨ exceedsMax c.max_compression_size data.length = true) →
        encode data c = data) := by
  constructor
  · intro hen hne hmin hmax
    exact ⟨streamTag c.backend :: data,
      backendImpl_compress c.backend data c.compression_level,
      encode_of_meets c data hen hne hmin hmax⟩
  · exact encode_skip c data

/-- C6 witness: the frame shape of a compressed 64-byte value and the
header-free pass-through of a 2-byte value under the enabled ZSTD
configuration. -/
theorem frame_format_witness :
    (∃ payload,
      (backendImpl CompressionBackend.ZSTD).compress (List.replicate 64 65) (some 3)
          = some payload
      ∧ encode (List.replicate 64 65) ⟨true, CompressionBackend.ZSTD, some 3, 64, none⟩
          = MAGIC ++ 0 :: payload)
    ∧ encode [1, 2] ⟨true, CompressionBackend.ZSTD, some 3, 64, none⟩ = [1, 2] :=
  ⟨(frame_format ⟨true, CompressionBackend.ZSTD, some 3, 64, none⟩
      (List.replicate 64 65)).1 rfl (by decide) (by decide) rfl,
   (frame_format ⟨true, CompressionBackend.ZSTD, some 3, 64, none⟩ [1, 2]).2
      (Or.inr (Or.inr (Or.inl (by decide))))⟩

/-- C7: a value compressed under one enabled configuration decodes to the
original bytes under any other enabled configuration, whatever backend the
reader has configured — decode dispatches on the discriminant stored in the
frame, not on the reader's configured backend. -/
theorem decode_dispatches_on_frame (cw cr : CompressionConfiguration)
    (data : List Nat) (hw : cw.enabled = true) (hr : cr.enabled = true)
    (hne : data ≠ []) (hmin : cw.min_compression_size ≤ (data.length : Int))
    (hmax : exceedsMax cw.max_compression_size data.length = false) :
    decode (encode data cw) cr = data := by
  rw [encode_of_meets cw data hw hne hmin hmax]
  exact decode_frame cr hr cw.backend data

/-- C7 witness: a 64-byte value written by a ZSTD-configured client is read
back exactly by an LZ4-configured client. -/
theorem decode_dispatches_on_frame_witness :
    decode (encode (List.replicate 64 65)
        ⟨true, CompressionBackend.ZSTD, some 3, 64, none⟩)
      ⟨true, CompressionBackend.LZ4, some 2, 32, none⟩ = List.replicate 64 65 :=
  decode_dispatches_on_frame ⟨true, CompressionBackend.ZSTD, some 3, 64, none⟩
    ⟨true, CompressionBackend.LZ4, some 2, 32, none⟩ (List.replicate 64 65)
    rfl rfl (by decide) (by decide) rfl

/-- C8: any input strictly shorter than `min_compression_size` is returned
unchanged by encode — the comparison uses the exact pre-compression byte
length — and the empty byte string is always left uncompressed, under every
configuration including one with `min_compression_size = 0`. -/
theorem encode_below_threshold_identity (c : CompressionConfiguration)
    (data : List Nat) :
    (((data.length : Int) < c.min_compression_size) → encode data c = data)
    ∧ encode [] c = [] := by
  constructor
  · intro h
    exact encode_skip c data (Or.inr (Or.inr (Or.inl h)))
  · exact encode_skip c [] (Or.inr (Or.inl rfl))

/-- C8 witness: a 3-byte value below the 64-byte minimum passes through
unchanged, and the empty string stays empty even with a zero minimum. -/
theorem encode_below_threshold_identity_witness :
    encode [1, 2, 3] ⟨true, CompressionBackend.ZSTD, some 3, 64, none⟩ = [1, 2, 3]
    ∧ encode [] ⟨true, CompressionBackend.ZSTD, some 3, 0, none⟩ = [] :=
  ⟨(encode_below_threshold_identity ⟨true, CompressionBackend.ZSTD, some 3, 64, none⟩
      [1, 2, 3]).1 (by decide),
   (encode_below_threshold_identity ⟨true, CompressionBackend.ZSTD, some 3, 0, none⟩
      [7]).2⟩

/-- C9: multi-key batched writes and reads bypass the codec under every
configuration, enabled included: after a multi-key write with pairwise
distinct keys, each key holds the exact original value (no frame header
added), and the multi-key read returns the exact original values. -/
theorem mset_mget_bypass (c : CompressionConfiguration) (s : Store)
    (kvs : List (List Nat × List Nat)) (hnd : (kvs.map Prod.fst).Nodup) :
    (∀ k v, (k, v) ∈ kvs → storeGet (clientMSet c s kvs) k = some v)
    ∧ clientMGet c (clientMSet c s kvs) (kvs.map Prod.fst)
        = kvs.map (fun kv => some kv.2) := by
  have hA := fun k v hmem => clientMSet_storeGet c s kvs hnd k v hmem
  refine ⟨hA, ?_⟩
  show (kvs.map Prod.fst).map (fun k => storeGet (clientMSet c s kvs) k)
      = kvs.map (fun kv => some kv.2)
  rw [List.map_map]
  apply List.map_congr_left
  intro kv hkv
  exact hA kv.1 kv.2 (Prod.mk.eta ▸ hkv)

/-- C9 witness: a two-pair multi-key write under an enabled configuration
stores and returns the exact original values. -/
theorem mset_mget_bypass_witness :
    storeGet (clientMSet ⟨true, CompressionBackend.ZSTD, some 3, 0, none⟩ []
        [([1], [10, 11]), ([2], [20])]) [1] = some [10, 11]
    ∧ clientMGet ⟨true, CompressionBackend.ZSTD, some 3, 0, none⟩
        (clientMSet ⟨true, CompressionBackend.ZSTD, some 3, 0, none⟩ []
          [([1], [10, 11]), ([2], [20])])
        [[1], [2]] = [some [10, 11], some [20]] :=
  ⟨(mset_mget_bypass ⟨true, CompressionBackend.ZSTD, some 3, 0, none⟩ []
      [([1], [10, 11]), ([2], [20])] (by decide)).1 [1] [10, 11] (by decide),
   (mset_mget_bypass ⟨true, CompressionBackend.ZSTD, some 3, 0, none⟩ []
      [([1], [10, 11]), ([2], [20])] (by decide)).2⟩

/-- C3 witness: the characterization applied at a concrete configuration with
a negative minimum size, which is rejected. -/
theorem validate_rejects_iff_witness :
    validate ⟨false, CompressionBackend.ZSTD, none, -1, none⟩ ≠ Except.ok () :=
  (validate_rejects_iff.1 ⟨false, CompressionBackend.ZSTD, none, -1, none⟩).mpr
    (Or.inl (by decide))

/-- C10 witness: flipping the enabled flag of a concrete configuration leaves
the validator's verdict unchanged. -/
theorem validate_ignores_enabled_witness :
    validate ⟨true, CompressionBackend.ZSTD, some 5, 64, none⟩
      = validate ⟨false, CompressionBackend.ZSTD, some 5, 64, none⟩ :=
  validate_ignores_enabled.1 ⟨false, CompressionBackend.ZSTD, some 5, 64, none⟩ true
